import Mathlib

/-!
Verification of the Foxwell CBF decoder (`parse_cbf` in `parse_cbf.py`).

The decoder is modelled as a shallow embedding over `List Nat` byte buffers
(Python 2 treats the file content as a byte string; `cbf[i]` yields the byte
at index `i` and raises `IndexError` when `i` is out of range, which we model
with an explicit `crash` outcome).  Every loop of the Python function is
rendered as a structurally recursive Lean function on an explicit fuel
argument; the inner loops are always called with fuel `buf.length + 1`, which
exceeds their iteration count (each iteration advances the cursor by at least
one byte), so their `fuelOut` constructor is unreachable.  The outer record
loop genuinely needs fuel: when the parsed field count is zero and no trailer
follows, the Python `while fp < flen` loop never advances `fp` and diverges.
-/

/-- Parsing stages used to tag end-of-file errors, mirroring the five error
strings of `parse_cbf.py` (heading 1/2/3, header parse, data parse). -/
inductive Stage where
  | heading1
  | heading2
  | heading3
  | fieldheader
  | data
deriving DecidableEq, Repr

/-- Errors accumulated by the decoder:  `unexpectedEof s` models the string
"end of file during ... parse" appended at stage `s`, and
`recordCountMismatch read expected` models the string
"read N records but expected M records" (lines 196-197 of the source). -/
inductive ParseError where
  | unexpectedEof (s : Stage)
  | recordCountMismatch (read : Nat) (expected : Int)
deriving DecidableEq, Repr

/-- The tuple `(headings, header, data, errors)` returned by `parse_cbf`. -/
structure DecodeResult where
  headings : List (List Nat)
  header : List (List Nat)
  data : List (List (List Nat))
  errors : List ParseError
deriving DecidableEq, Repr

/-- Outcome of running the decoder: a normal return, an uncaught
`IndexError` from an out-of-bounds buffer access, or fuel exhaustion
(modelling the diverging zero-field-count loop). -/
inductive ParseOut where
  | ok (r : DecodeResult)
  | crash
  | fuel
deriving DecidableEq, Repr

/-- Outcome of one null-terminated heading scan (lines 107-131):
`ok acc z` means a zero byte was found at index `z` with `acc` the bytes
before it; `eof` means the buffer ran out mid-scan (graceful stage error);
`crash` means the very first access `cbf[fp]` was out of bounds. -/
inductive ScanRes where
  | ok (acc : List Nat) (zeroPos : Nat)
  | eof (acc : List Nat)
  | crash
  | fuelOut
deriving DecidableEq, Repr

/-- Outcome of the field-definition-table loop (lines 140-165). -/
inductive FieldRes where
  | ok (header : List (List Nat)) (fp : Nat)
  | eof (header : List (List Nat))
  | fuelOut
deriving DecidableEq, Repr

/-- Outcome of the inner per-record loop (lines 175-189). -/
inductive RecRes where
  | ok (line : List (List Nat)) (fp : Nat)
  | eofData
  | fuelOut
deriving DecidableEq, Repr

/-- Outcome of the outer record loop (lines 171-195): `done data read expected
sawEof` carries the accumulated records, the number of records read, the
trailer count (`-1` when no trailer was found) and whether the buffer ran out
mid-record. -/
inductive DataRes where
  | done (data : List (List (List Nat))) (read : Nat) (expected : Int) (sawEof : Bool)
  | crash
  | fuelOut
deriving DecidableEq, Repr

/-- Python `ft.replace("\xb0", "deg ")` on a byte string: every byte 0xB0
(176) expands to the four bytes of "deg " (100, 101, 103, 32). -/
def replaceB0 : List Nat → List Nat
  | [] => []
  | b :: rest => (if b = 176 then [100, 101, 103, 32] else [b]) ++ replaceB0 rest

/-- Python `s.rstrip(' ')`: drop trailing space bytes (32). -/
def rstripSpaces (l : List Nat) : List Nat :=
  (l.reverse.dropWhile (fun b => b = 32)).reverse

/-- Little-endian 32-bit read `ord(cbf[fp]) + 256*ord(cbf[fp+1]) +
65536*ord(cbf[fp+2]) + 16777216*ord(cbf[fp+3])` (line 194); only used at
positions proven in bounds by the preceding trailer-marker test. -/
def le32 (buf : List Nat) (fp : Nat) : Nat :=
  buf.getD fp 0 + 256 * buf.getD (fp + 1) 0 + 65536 * buf.getD (fp + 2) 0 +
    16777216 * buf.getD (fp + 3) 0

/-- The heading scan loop `while cbf[fp] != "\x00": ft += cbf[fp]; fp += 1;
if fp >= flen: error` (lines 107-112 and its two copies).  The first access
`cbf[fp]` is unguarded, so entering the loop with `fp` out of range raises
`IndexError` (`crash`); once inside, the bound is re-checked after each
increment, so only the entry access can be out of bounds. -/
def scanZ (buf : List Nat) : Nat → Nat → List Nat → ScanRes
  | 0, _, _ => ScanRes.fuelOut
  | fuel + 1, fp, acc =>
    match buf.get? fp with
    | none => ScanRes.crash
    | some b =>
      if b = 0 then ScanRes.ok acc fp
      else if buf.length ≤ fp + 1 then ScanRes.eof (acc ++ [b])
      else scanZ buf fuel (fp + 1) (acc ++ [b])

/-- The field-definition-table loop (lines 143-165): runs until `fn` reaches
`nf`, checking the cursor bound first, then the three prioritized byte rules
(second zero finalizes the accumulated name via `replaceB0`/`rstripSpaces`
and counts it only when non-empty; byte 6 skips ten bytes; a printable byte
is accumulated; a first zero bumps `nz` and appends one space to a non-empty
accumulator). -/
def fieldLoop (buf : List Nat) (nf : Nat) : Nat → Nat → Nat → List Nat → Nat → List (List Nat) → FieldRes
  | 0, _, _, _, _, _ => FieldRes.fuelOut
  | fuel + 1, fp, fn, ft, nz, hdr =>
    if nf ≤ fn then FieldRes.ok hdr fp
    else if buf.length ≤ fp then FieldRes.eof hdr
    else if buf.getD fp 0 = 0 ∧ 0 < nz then
      (if 0 < (rstripSpaces (replaceB0 ft)).length then
        fieldLoop buf nf fuel (fp + 1) (fn + 1) [] 0 (hdr ++ [rstripSpaces (replaceB0 ft)])
      else fieldLoop buf nf fuel (fp + 1) fn [] 0 hdr)
    else if buf.getD fp 0 = 6 then
      fieldLoop buf nf fuel (fp + 10) fn ft nz hdr
    else if buf.getD fp 0 ≠ 0 then
      fieldLoop buf nf fuel (fp + 1) fn (if 31 < buf.getD fp 0 then ft ++ [buf.getD fp 0] else ft) nz hdr
    else
      fieldLoop buf nf fuel (fp + 1) fn (if 0 < ft.length then ft ++ [32] else ft) (nz + 1) hdr

/-- The inner per-record loop (lines 178-189): collects `nf` null-terminated
values; a zero byte closes the current value, any other byte is kept
verbatim; running out of buffer mid-record yields the data-stage error. -/
def recLoop (buf : List Nat) (nf : Nat) : Nat → Nat → Nat → List Nat → List (List Nat) → RecRes
  | 0, _, _, _, _ => RecRes.fuelOut
  | fuel + 1, fp, fn, ft, line =>
    if nf ≤ fn then RecRes.ok line fp
    else if buf.length ≤ fp then RecRes.eofData
    else if buf.getD fp 0 = 0 then recLoop buf nf fuel (fp + 1) (fn + 1) [] (line ++ [ft])
    else recLoop buf nf fuel (fp + 1) fn (ft ++ [buf.getD fp 0]) line

/-- The outer record loop `while fp < flen` (lines 173-195).  After a
completed record the four bytes at `fp+4 .. fp+7` are probed for the trailer
marker AA 55 33 11 with Python short-circuit evaluation: each probe
`cbf[fp+k]` raises `IndexError` when out of range, and a failed comparison
stops the probing and continues the loop at the current cursor. -/
def dataLoop (buf : List Nat) (nf : Nat) : Nat → Nat → List (List (List Nat)) → Nat → Int → DataRes
  | 0, _, _, _, _ => DataRes.fuelOut
  | fuel + 1, fp, d, read, exp =>
    if buf.length ≤ fp then DataRes.done d read exp false
    else
      match recLoop buf nf (buf.length + 1) fp 0 [] [] with
      | RecRes.fuelOut => DataRes.fuelOut
      | RecRes.eofData => DataRes.done d read exp true
      | RecRes.ok line fp2 =>
        match buf.get? (fp2 + 4) with
        | none => DataRes.crash
        | some b4 =>
          if b4 = 170 then
            match buf.get? (fp2 + 5) with
            | none => DataRes.crash
            | some b5 =>
              if b5 = 85 then
                match buf.get? (fp2 + 6) with
                | none => DataRes.crash
                | some b6 =>
                  if b6 = 51 then
                    match buf.get? (fp2 + 7) with
                    | none => DataRes.crash
                    | some b7 =>
                      if b7 = 17 then
                        DataRes.done (d ++ [line]) (read + 1) (Int.ofNat (le32 buf fp2)) false
                      else dataLoop buf nf fuel fp2 (d ++ [line]) (read + 1) exp
                  else dataLoop buf nf fuel fp2 (d ++ [line]) (read + 1) exp
              else dataLoop buf nf fuel fp2 (d ++ [line]) (read + 1) exp
          else dataLoop buf nf fuel fp2 (d ++ [line]) (read + 1) exp

/-- The full decoder `parse_cbf` (lines 97-198): three heading scans (with
the nine-byte skip after heading 2 covering its terminator plus the eight
opaque bytes), the two-byte little-endian field count, the field-definition
table, the record loop, and the final record-count reconciliation.  Early
stage errors return immediately with the partial result, exactly as the
Python `return headings,header,data,errors` statements do. -/
def parse_cbf (cbf : List Nat) (fuel : Nat) : ParseOut :=
  match scanZ cbf (cbf.length + 1) 0 [] with
  | ScanRes.fuelOut => ParseOut.fuel
  | ScanRes.crash => ParseOut.crash
  | ScanRes.eof _ => ParseOut.ok ⟨[], [], [], [ParseError.unexpectedEof Stage.heading1]⟩
  | ScanRes.ok h1 z1 =>
    match scanZ cbf (cbf.length + 1) (z1 + 1) [] with
    | ScanRes.fuelOut => ParseOut.fuel
    | ScanRes.crash => ParseOut.crash
    | ScanRes.eof _ => ParseOut.ok ⟨[h1], [], [], [ParseError.unexpectedEof Stage.heading2]⟩
    | ScanRes.ok h2 z2 =>
      match scanZ cbf (cbf.length + 1) (z2 + 9) [] with
      | ScanRes.fuelOut => ParseOut.fuel
      | ScanRes.crash => ParseOut.crash
      | ScanRes.eof _ => ParseOut.ok ⟨[h1, h2], [], [], [ParseError.unexpectedEof Stage.heading3]⟩
      | ScanRes.ok h3 z3 =>
        match cbf.get? (z3 + 1) with
        | none => ParseOut.crash
        | some c0 =>
          match cbf.get? (z3 + 2) with
          | none => ParseOut.crash
          | some c1 =>
            match fieldLoop cbf (c0 + 256 * c1) (cbf.length + 1) (z3 + 3) 0 [] 0 [] with
            | FieldRes.fuelOut => ParseOut.fuel
            | FieldRes.eof hdr =>
              ParseOut.ok ⟨[h1, h2, h3], hdr, [], [ParseError.unexpectedEof Stage.fieldheader]⟩
            | FieldRes.ok hdr fp2 =>
              match dataLoop cbf (c0 + 256 * c1) fuel fp2 [] 0 (-1) with
              | DataRes.fuelOut => ParseOut.fuel
              | DataRes.crash => ParseOut.crash
              | DataRes.done d read exp sawEof =>
                ParseOut.ok ⟨[h1, h2, h3], hdr, d,
                  (if sawEof = true then [ParseError.unexpectedEof Stage.data] else []) ++
                  (if (read : Int) = exp then [] else [ParseError.recordCountMismatch read exp])⟩
theorem recLoop_ok_len (buf : List Nat) (nf : Nat) :
    ∀ fuel fp fn ft line line2 fp2, fn ≤ nf →
      recLoop buf nf fuel fp fn ft line = RecRes.ok line2 fp2 →
      line2.length = line.length + (nf - fn) := by
  intro fuel
  induction fuel with
  | zero =>
    intro fp fn ft line line2 fp2 _ h
    simp [recLoop] at h
  | succ n ih =>
    intro fp fn ft line line2 fp2 hfn h
    simp only [recLoop] at h
    split at h
    · cases h
      next hle => omega
    · split at h
      · cases h
      · split at h
        · have := ih (fp + 1) (fn + 1) [] (line ++ [ft]) line2 fp2 (by omega) h
          simp only [List.length_append, List.length_cons, List.length_nil] at this
          omega
        · have := ih (fp + 1) fn (ft ++ [buf.getD fp 0]) line line2 fp2 hfn h
          omega
theorem fieldLoop_ok_len (buf : List Nat) (nf : Nat) :
    ∀ fuel fp fn ft nz hdr hdr2 fp2, fn ≤ nf →
      fieldLoop buf nf fuel fp fn ft nz hdr = FieldRes.ok hdr2 fp2 →
      hdr2.length = hdr.length + (nf - fn) := by
  intro fuel
  induction fuel with
  | zero =>
    intro fp fn ft nz hdr hdr2 fp2 _ h
    simp [fieldLoop] at h
  | succ n ih =>
    intro fp fn ft nz hdr hdr2 fp2 hfn h
    simp only [fieldLoop] at h
    split at h
    · cases h
      next hle => omega
    · split at h
      · cases h
      · split at h
        · split at h
          · have := ih (fp + 1) (fn + 1) [] 0 (hdr ++ [rstripSpaces (replaceB0 ft)]) hdr2 fp2 (by omega) h
            simp only [List.length_append, List.length_cons, List.length_nil] at this
            omega
          · have := ih (fp + 1) fn [] 0 hdr hdr2 fp2 hfn h
            omega
        · split at h
          · have := ih (fp + 10) fn ft nz hdr hdr2 fp2 hfn h
            omega
          · split at h
            · have := ih (fp + 1) fn (if 31 < buf.getD fp 0 then ft ++ [buf.getD fp 0] else ft) nz hdr hdr2 fp2 hfn h
              omega
            · have := ih (fp + 1) fn (if 0 < ft.length then ft ++ [32] else ft) (nz + 1) hdr hdr2 fp2 hfn h
              omega

theorem dataLoop_done_records (buf : List Nat) (nf : Nat) :
    ∀ fuel fp d read exp d2 read2 exp2 s,
      dataLoop buf nf fuel fp d read exp = DataRes.done d2 read2 exp2 s →
      (∀ rec ∈ d, rec.length = nf) →
      ((∀ rec ∈ d2, rec.length = nf) ∧ d2.length + read = d.length + read2) := by
  intro fuel
  induction fuel with
  | zero =>
    intro fp d read exp d2 read2 exp2 s h _
    simp [dataLoop] at h
  | succ n ih =>
    intro fp d read exp d2 read2 exp2 s h hall
    simp only [dataLoop] at h
    split at h
    · cases h
      exact ⟨hall, rfl⟩
    · cases hrec : recLoop buf nf (buf.length + 1) fp 0 [] [] with
      | fuelOut => rw [hrec] at h; cases h
      | eofData =>
        rw [hrec] at h
        cases h
        exact ⟨hall, rfl⟩
      | ok line fp2 =>
        rw [hrec] at h
        dsimp only at h
        have hlen : line.length = nf := by
          have := recLoop_ok_len buf nf (buf.length + 1) fp 0 [] [] line fp2 (Nat.zero_le nf) hrec
          simpa using this
        have hall2 : ∀ rec ∈ d ++ [line], rec.length = nf := by
          intro rec hr
          rcases List.mem_append.mp hr with hr | hr
          · exact hall rec hr
          · simp only [List.mem_singleton] at hr
            rw [hr]; exact hlen
        cases hb4 : buf.get? (fp2 + 4) with
        | none => rw [hb4] at h; cases h
        | some b4 =>
          rw [hb4] at h
          simp only at h
          split at h
          · cases hb5 : buf.get? (fp2 + 5) with
            | none => rw [hb5] at h; cases h
            | some b5 =>
              rw [hb5] at h
              simp only at h
              split at h
              · cases hb6 : buf.get? (fp2 + 6) with
                | none => rw [hb6] at h; cases h
                | some b6 =>
                  rw [hb6] at h
                  simp only at h
                  split at h
                  · cases hb7 : buf.get? (fp2 + 7) with
                    | none => rw [hb7] at h; cases h
                    | some b7 =>
                      rw [hb7] at h
                      simp only at h
                      split at h
                      · cases h
                        refine ⟨hall2, ?_⟩
                        simp only [List.length_append, List.length_cons, List.length_nil]
                        omega
                      · have := ih fp2 (d ++ [line]) (read + 1) exp d2 read2 exp2 s h hall2
                        simp only [List.length_append, List.length_cons, List.length_nil] at this
                        exact ⟨this.1, by omega⟩
                  · have := ih fp2 (d ++ [line]) (read + 1) exp d2 read2 exp2 s h hall2
                    simp only [List.length_append, List.length_cons, List.length_nil] at this
                    exact ⟨this.1, by omega⟩
              · have := ih fp2 (d ++ [line]) (read + 1) exp d2 read2 exp2 s h hall2
                simp only [List.length_append, List.length_cons, List.length_nil] at this
                exact ⟨this.1, by omega⟩
          · have := ih fp2 (d ++ [line]) (read + 1) exp d2 read2 exp2 s h hall2
            simp only [List.length_append, List.length_cons, List.length_nil] at this
            exact ⟨this.1, by omega⟩

theorem dataLoop_done_sawEof (buf : List Nat) (nf : Nat) :
    ∀ fuel fp d read exp d2 read2 exp2,
      dataLoop buf nf fuel fp d read exp = DataRes.done d2 read2 exp2 true →
      exp2 = exp := by
  intro fuel
  induction fuel with
  | zero =>
    intro fp d read exp d2 read2 exp2 h
    simp [dataLoop] at h
  | succ n ih =>
    intro fp d read exp d2 read2 exp2 h
    simp only [dataLoop] at h
    split at h
    · cases h
    · cases hrec : recLoop buf nf (buf.length + 1) fp 0 [] [] with
      | fuelOut => rw [hrec] at h; cases h
      | eofData =>
        rw [hrec] at h
        cases h
        rfl
      | ok line fp2 =>
        rw [hrec] at h
        dsimp only at h
        cases hb4 : buf.get? (fp2 + 4) with
        | none => rw [hb4] at h; cases h
        | some b4 =>
          rw [hb4] at h
          simp only at h
          split at h
          · cases hb5 : buf.get? (fp2 + 5) with
            | none => rw [hb5] at h; cases h
            | some b5 =>
              rw [hb5] at h
              simp only at h
              split at h
              · cases hb6 : buf.get? (fp2 + 6) with
                | none => rw [hb6] at h; cases h
                | some b6 =>
                  rw [hb6] at h
                  simp only at h
                  split at h
                  · cases hb7 : buf.get? (fp2 + 7) with
                    | none => rw [hb7] at h; cases h
                    | some b7 =>
                      rw [hb7] at h
                      simp only at h
                      split at h
                      · cases h
                      · exact ih fp2 (d ++ [line]) (read + 1) exp d2 read2 exp2 h
                  · exact ih fp2 (d ++ [line]) (read + 1) exp d2 read2 exp2 h
              · exact ih fp2 (d ++ [line]) (read + 1) exp d2 read2 exp2 h
          · exact ih fp2 (d ++ [line]) (read + 1) exp d2 read2 exp2 h
theorem parse_ok_shape (cbf : List Nat) (fuel : Nat) (r : DecodeResult)
    (h : parse_cbf cbf fuel = ParseOut.ok r) :
    (r.header = [] ∧ r.data = [] ∧ ∃ s, r.errors = [ParseError.unexpectedEof s])
    ∨ (r.data = [] ∧ r.errors = [ParseError.unexpectedEof Stage.fieldheader])
    ∨ (∃ nf start hdr fp2 d read exp sawEof,
        fieldLoop cbf nf (cbf.length + 1) start 0 [] 0 [] = FieldRes.ok hdr fp2 ∧
        dataLoop cbf nf fuel fp2 [] 0 (-1) = DataRes.done d read exp sawEof ∧
        r.header = hdr ∧ r.data = d ∧
        r.errors = (if sawEof = true then [ParseError.unexpectedEof Stage.data] else []) ++
          (if (read : Int) = exp then [] else [ParseError.recordCountMismatch read exp])) := by
  simp only [parse_cbf] at h
  cases e1 : scanZ cbf (cbf.length + 1) 0 [] with
  | fuelOut => rw [e1] at h; cases h
  | crash => rw [e1] at h; cases h
  | eof acc =>
    rw [e1] at h
    cases h
    exact Or.inl ⟨rfl, rfl, Stage.heading1, rfl⟩
  | ok h1 z1 =>
    rw [e1] at h
    dsimp only at h
    cases e2 : scanZ cbf (cbf.length + 1) (z1 + 1) [] with
    | fuelOut => rw [e2] at h; cases h
    | crash => rw [e2] at h; cases h
    | eof acc =>
      rw [e2] at h
      cases h
      exact Or.inl ⟨rfl, rfl, Stage.heading2, rfl⟩
    | ok h2 z2 =>
      rw [e2] at h
      dsimp only at h
      cases e3 : scanZ cbf (cbf.length + 1) (z2 + 9) [] with
      | fuelOut => rw [e3] at h; cases h
      | crash => rw [e3] at h; cases h
      | eof acc =>
        rw [e3] at h
        cases h
        exact Or.inl ⟨rfl, rfl, Stage.heading3, rfl⟩
      | ok h3 z3 =>
        rw [e3] at h
        dsimp only at h
        cases e4 : cbf.get? (z3 + 1) with
        | none => rw [e4] at h; cases h
        | some c0 =>
          rw [e4] at h
          dsimp only at h
          cases e5 : cbf.get? (z3 + 2) with
          | none => rw [e5] at h; cases h
          | some c1 =>
            rw [e5] at h
            dsimp only at h
            cases e6 : fieldLoop cbf (c0 + 256 * c1) (cbf.length + 1) (z3 + 3) 0 [] 0 [] with
            | fuelOut => rw [e6] at h; cases h
            | eof hdr =>
              rw [e6] at h
              cases h
              exact Or.inr (Or.inl ⟨rfl, rfl⟩)
            | ok hdr fp2 =>
              rw [e6] at h
              dsimp only at h
              cases e7 : dataLoop cbf (c0 + 256 * c1) fuel fp2 [] 0 (-1) with
              | fuelOut => rw [e7] at h; cases h
              | crash => rw [e7] at h; cases h
              | done d read exp sawEof =>
                rw [e7] at h
                cases h
                exact Or.inr (Or.inr ⟨c0 + 256 * c1, z3 + 3, hdr, fp2, d, read, exp, sawEof,
                  e6, e7, rfl, rfl, rfl⟩)
/-- C1: the claim says the decoder never performs an out-of-bounds buffer
access and stops early only via stage-tagged end-of-file conditions.  The
code refutes this: on the empty buffer the heading-1 loop entry reads
`cbf[0]`, and after a buffer truncated inside the nine-byte skip region the
heading-3 loop entry reads past the end; both raise `IndexError`. -/
theorem c1_decoder_oob_crash :
    parse_cbf [] 100 = ParseOut.crash ∧
    parse_cbf [65, 0, 66, 0, 1, 2, 3] 100 = ParseOut.crash :=
  ⟨rfl, rfl⟩

/-- C2: whenever the decoder returns a result, every record in it has exactly
as many values as there are parsed field definitions; a record that cannot be
completed to the field count is discarded, never emitted short. -/
theorem c2_record_arity (cbf : List Nat) (fuel : Nat) (r : DecodeResult)
    (h : parse_cbf cbf fuel = ParseOut.ok r) :
    ∀ rec ∈ r.data, rec.length = r.header.length := by
  rcases parse_ok_shape cbf fuel r h with ⟨_, hd, _⟩ | ⟨hd, _⟩ |
    ⟨nf, st, hdr, fp2, d, read, exp, s, hf, hdl, hh, hd, _⟩
  · intro rec hrec
    rw [hd] at hrec
    cases hrec
  · intro rec hrec
    rw [hd] at hrec
    cases hrec
  · intro rec hrec
    rw [hd] at hrec
    rw [hh]
    have hlen : hdr.length = nf := by
      have := fieldLoop_ok_len cbf nf (cbf.length + 1) st 0 [] 0 [] hdr fp2 (Nat.zero_le nf) hf
      simpa using this
    have hrecs := (dataLoop_done_records cbf nf fuel fp2 [] 0 (-1) d read exp s hdl (by simp)).1
    rw [hlen]
    exact hrecs rec hrec

/-- Witness for C2 at a concrete well-formed buffer: the single record has
as many values as the field table has entries. -/
theorem c2_record_arity_witness :
    ([[53]] : List (List Nat)).length = 1 :=
  c2_record_arity [65, 0, 66, 0, 1, 2, 3, 4, 5, 6, 7, 8, 67, 0, 1, 0, 88, 0, 0, 53, 0, 1, 0, 0, 0, 170, 85, 51, 17] 100
    ⟨[[65], [66], [67]], [[88]], [[[53]]], []⟩ rfl [[53]] (by simp)

/-- C3 counterexample: the claimed byte sequence carries an extra zero byte
between heading 2's terminator and the eight opaque bytes, so the nine-byte
skip lands one byte early; with the spec's own example opaque bytes
7B 14 8E 3F 00 00 00 00 the decoder returns heading 3 as the empty string,
misreads the field count, and errors out, instead of the claimed
headings A, B, C with no errors. -/
theorem c3_extra_zero_counterexample :
    parse_cbf ([65, 0, 66, 0, 0] ++ [123, 20, 142, 63, 0, 0, 0, 0] ++ [67, 0] ++ [1, 0] ++
        [88, 0, 0] ++ [53, 0] ++ [1, 0, 0, 0, 170, 85, 51, 17]) 100 =
      ParseOut.ok ⟨[[65], [66], []], [[88], [53]], [], [ParseError.unexpectedEof Stage.fieldheader]⟩ ∧
    [[65], [66], ([] : List Nat)] ≠ [[65], [66], [67]] :=
  ⟨rfl, by decide⟩

/-- C3 amended: with the extra zero removed (prefix A 00 B 00, since the
nine-byte skip already covers heading 2's terminator plus the eight opaque
bytes), the scenario holds: headings A, B, C; fields X; records 5; no
errors. -/
theorem c3_aligned_scenario :
    parse_cbf ([65, 0, 66, 0] ++ [123, 20, 142, 63, 0, 0, 0, 0] ++ [67, 0] ++ [1, 0] ++
        [88, 0, 0] ++ [53, 0] ++ [1, 0, 0, 0, 170, 85, 51, 17]) 100 =
      ParseOut.ok ⟨[[65], [66], [67]], [[88]], [[[53]]], []⟩ :=
  rfl

/-- C4 amended: when a field name is finalized (a zero byte with a zero
already seen), every 0xB0 byte in the accumulator is replaced by the four
bytes of "deg " and trailing spaces are stripped before the name is
recorded; the accumulated run Temp 0xB0 yields "Tempdeg" (no space is
inserted before "deg"). -/
theorem c4_finalize_rule (buf : List Nat) (nf fuel fp fn : Nat) (ft : List Nat) (nz : Nat)
    (hdr : List (List Nat)) (hfn : fn < nf) (hfp : fp < buf.length)
    (hb : buf.getD fp 0 = 0) (hnz : 0 < nz)
    (hne : rstripSpaces (replaceB0 ft) ≠ []) :
    fieldLoop buf nf (fuel + 1) fp fn ft nz hdr =
      fieldLoop buf nf fuel (fp + 1) (fn + 1) [] 0 (hdr ++ [rstripSpaces (replaceB0 ft)]) ∧
    rstripSpaces (replaceB0 [84, 101, 109, 112, 176]) = [84, 101, 109, 112, 100, 101, 103] := by
  constructor
  · simp only [fieldLoop]
    rw [if_neg (by omega), if_neg (by omega), if_pos ⟨hb, hnz⟩,
      if_pos (List.length_pos.mpr hne)]
  · rfl

/-- Witness for C4 applying the finalize rule at a concrete state. -/
theorem c4_finalize_rule_witness :
    fieldLoop [0, 84] 1 6 0 0 [84] 1 [] = fieldLoop [0, 84] 1 5 1 1 [] 0 [[84]] ∧
    rstripSpaces (replaceB0 [84, 101, 109, 112, 176]) = [84, 101, 109, 112, 100, 101, 103] :=
  c4_finalize_rule [0, 84] 1 5 0 0 [84] 1 [] (by decide) (by decide) rfl (by decide) (by decide)

/-- C4 counterexample: running the full decoder on a file whose single field
is the byte run Temp 0xB0 produces the field name "Tempdeg"
(84 101 109 112 100 101 103), not the claimed "Temp deg"
(84 101 109 112 32 100 101 103). -/
theorem c4_tempdeg_counterexample :
    parse_cbf ([65, 0, 66, 0] ++ [123, 20, 142, 63, 0, 0, 0, 0] ++ [67, 0] ++ [1, 0] ++
        [84, 101, 109, 112, 176, 0, 0] ++ [53, 0] ++ [1, 0, 0, 0, 170, 85, 51, 17]) 100 =
      ParseOut.ok ⟨[[65], [66], [67]], [[84, 101, 109, 112, 100, 101, 103]], [[[53]]], []⟩ ∧
    [84, 101, 109, 112, 100, 101, 103] ≠ [84, 101, 109, 112, 32, 100, 101, 103] :=
  ⟨rfl, by decide⟩

/-- C5: the claim says every truncation strictly before the minimum viable
prefix yields exactly one stage-tagged end-of-file error.  The code refutes
this: the two-byte buffer 41 00 is truncated at the start of heading 2, yet
the decoder reads `cbf[2]` out of bounds and raises `IndexError` instead of
returning the heading2-tagged error. -/
theorem c5_truncated_heading2_crash :
    parse_cbf [65, 0] 100 = ParseOut.crash :=
  rfl
/-- C6: after the record loop exits with `read` records, trailer count `exp`
(-1 when no trailer was found, per the loop's initial value), and possibly a
data-stage end-of-file flag, the decoder returns all parsed records
unchanged and appends exactly one RecordCountMismatch error if and only if
the two counts differ; the recorded actual count equals the number of
returned records. -/
theorem c6_mismatch_check (cbf : List Nat) (fuel : Nat) (h1 h2 h3 : List Nat)
    (z1 z2 z3 c0 c1 : Nat) (hdr : List (List Nat)) (fp2 : Nat)
    (d : List (List (List Nat))) (read : Nat) (exp : Int) (sawEof : Bool)
    (e1 : scanZ cbf (cbf.length + 1) 0 [] = ScanRes.ok h1 z1)
    (e2 : scanZ cbf (cbf.length + 1) (z1 + 1) [] = ScanRes.ok h2 z2)
    (e3 : scanZ cbf (cbf.length + 1) (z2 + 9) [] = ScanRes.ok h3 z3)
    (e4 : cbf.get? (z3 + 1) = some c0) (e5 : cbf.get? (z3 + 2) = some c1)
    (e6 : fieldLoop cbf (c0 + 256 * c1) (cbf.length + 1) (z3 + 3) 0 [] 0 [] = FieldRes.ok hdr fp2)
    (e7 : dataLoop cbf (c0 + 256 * c1) fuel fp2 [] 0 (-1) = DataRes.done d read exp sawEof) :
    parse_cbf cbf fuel = ParseOut.ok ⟨[h1, h2, h3], hdr, d,
        (if sawEof = true then [ParseError.unexpectedEof Stage.data] else []) ++
        (if (read : Int) = exp then [] else [ParseError.recordCountMismatch read exp])⟩ ∧
      d.length = read := by
  constructor
  · simp only [parse_cbf, e1, e2, e3, e4, e5, e6, e7]
  · have := dataLoop_done_records cbf (c0 + 256 * c1) fuel fp2 [] 0 (-1) d read exp sawEof e7
      (by simp)
    have h2 := this.2
    simp only [List.length_nil] at h2
    omega

/-- Witness for C6 at a buffer whose trailer claims two records while only
one was parsed: the mismatch error is appended and the record kept. -/
theorem c6_mismatch_check_witness :
    parse_cbf [65, 0, 66, 0, 123, 20, 142, 63, 0, 0, 0, 0, 67, 0, 1, 0, 88, 0, 0, 53, 0, 2, 0, 0, 0, 170, 85, 51, 17] 100 =
      ParseOut.ok ⟨[[65], [66], [67]], [[88]], [[[53]]], [ParseError.recordCountMismatch 1 2]⟩ ∧
    ([[[53]]] : List (List (List Nat))).length = 1 :=
  c6_mismatch_check
    [65, 0, 66, 0, 123, 20, 142, 63, 0, 0, 0, 0, 67, 0, 1, 0, 88, 0, 0, 53, 0, 2, 0, 0, 0, 170, 85, 51, 17]
    100 [65] [66] [67] 1 3 13 1 0 [[88]] 19 [[[53]]] 1 2 false
    rfl rfl rfl rfl rfl rfl rfl

/-- C7 counterexample: a buffer with a perfectly well-formed trailer whose
declared count (5) differs from the single parsed record: the result has one
record, not five, and a RecordCountMismatch error is present, refuting the
claim for arbitrary inputs with a well-formed trailer. -/
theorem c7_trailer_count_counterexample :
    parse_cbf ([65, 0, 66, 0] ++ [123, 20, 142, 63, 0, 0, 0, 0] ++ [67, 0] ++ [1, 0] ++
        [88, 0, 0] ++ [53, 0] ++ [5, 0, 0, 0, 170, 85, 51, 17]) 100 =
      ParseOut.ok ⟨[[65], [66], [67]], [[88]], [[[53]]], [ParseError.recordCountMismatch 1 5]⟩ ∧
    (1 : Int) ≠ 5 :=
  ⟨rfl, by decide⟩

/-- C7 amended: when the record loop finds a trailer whose declared count
equals the number of records it read, the decoder returns exactly that many
records and an empty error list (in particular no RecordCountMismatch). -/
theorem c7_trailer_match (cbf : List Nat) (fuel : Nat) (h1 h2 h3 : List Nat)
    (z1 z2 z3 c0 c1 : Nat) (hdr : List (List Nat)) (fp2 : Nat)
    (d : List (List (List Nat))) (read : Nat) (exp : Int) (sawEof : Bool)
    (e1 : scanZ cbf (cbf.length + 1) 0 [] = ScanRes.ok h1 z1)
    (e2 : scanZ cbf (cbf.length + 1) (z1 + 1) [] = ScanRes.ok h2 z2)
    (e3 : scanZ cbf (cbf.length + 1) (z2 + 9) [] = ScanRes.ok h3 z3)
    (e4 : cbf.get? (z3 + 1) = some c0) (e5 : cbf.get? (z3 + 2) = some c1)
    (e6 : fieldLoop cbf (c0 + 256 * c1) (cbf.length + 1) (z3 + 3) 0 [] 0 [] = FieldRes.ok hdr fp2)
    (e7 : dataLoop cbf (c0 + 256 * c1) fuel fp2 [] 0 (-1) = DataRes.done d read exp sawEof)
    (hmatch : (read : Int) = exp) :
    parse_cbf cbf fuel = ParseOut.ok ⟨[h1, h2, h3], hdr, d, []⟩ ∧ (d.length : Int) = exp := by
  have hs : sawEof = false := by
    cases hsw : sawEof
    · rfl
    · exfalso
      rw [hsw] at e7
      have := dataLoop_done_sawEof cbf (c0 + 256 * c1) fuel fp2 [] 0 (-1) d read exp e7
      rw [this] at hmatch
      omega
  subst hs
  have hlen : d.length = read := by
    have := dataLoop_done_records cbf (c0 + 256 * c1) fuel fp2 [] 0 (-1) d read exp false e7
      (by simp)
    have h2 := this.2
    simp only [List.length_nil] at h2
    omega
  constructor
  · simp only [parse_cbf, e1, e2, e3, e4, e5, e6, e7]
    simp [hmatch]
  · rw [hlen]
    exact hmatch

/-- Witness for C7 at a buffer whose trailer count equals the one parsed
record: no error is reported. -/
theorem c7_trailer_match_witness :
    parse_cbf [65, 0, 66, 0, 123, 20, 142, 63, 0, 0, 0, 0, 67, 0, 1, 0, 88, 0, 0, 53, 0, 1, 0, 0, 0, 170, 85, 51, 17] 100 =
      ParseOut.ok ⟨[[65], [66], [67]], [[88]], [[[53]]], []⟩ ∧
    (([[[53]]] : List (List (List Nat))).length : Int) = 1 :=
  c7_trailer_match
    [65, 0, 66, 0, 123, 20, 142, 63, 0, 0, 0, 0, 67, 0, 1, 0, 88, 0, 0, 53, 0, 1, 0, 0, 0, 170, 85, 51, 17]
    100 [65] [66] [67] 1 3 13 1 0 [[88]] 19 [[[53]]] 1 1 false
    rfl rfl rfl rfl rfl rfl rfl rfl
/-- C8: after a successfully completed record (the inner loop returning with
the cursor at `fp2`, one byte past the record's final terminator), if the
four bytes at offsets 4..7 equal AA 55 33 11 the loop terminates with the
expected count read as an unsigned little-endian 32-bit integer from offsets
0..3, appending the completed record; if any probed byte differs from the
marker, parsing continues from the current cursor with the record
appended. -/
theorem c8_trailer_lookahead (cbf : List Nat) (nf fuel fp : Nat)
    (d : List (List (List Nat))) (read : Nat) (exp : Int)
    (line : List (List Nat)) (fp2 : Nat)
    (hfp : fp < cbf.length)
    (hrec : recLoop cbf nf (cbf.length + 1) fp 0 [] [] = RecRes.ok line fp2) :
    (cbf.get? (fp2 + 4) = some 170 → cbf.get? (fp2 + 5) = some 85 →
      cbf.get? (fp2 + 6) = some 51 → cbf.get? (fp2 + 7) = some 17 →
      dataLoop cbf nf (fuel + 1) fp d read exp =
        DataRes.done (d ++ [line]) (read + 1) (Int.ofNat (le32 cbf fp2)) false) ∧
    (∀ b4, cbf.get? (fp2 + 4) = some b4 → b4 ≠ 170 →
      dataLoop cbf nf (fuel + 1) fp d read exp =
        dataLoop cbf nf fuel fp2 (d ++ [line]) (read + 1) exp) ∧
    (∀ b5, cbf.get? (fp2 + 4) = some 170 → cbf.get? (fp2 + 5) = some b5 → b5 ≠ 85 →
      dataLoop cbf nf (fuel + 1) fp d read exp =
        dataLoop cbf nf fuel fp2 (d ++ [line]) (read + 1) exp) ∧
    (∀ b6, cbf.get? (fp2 + 4) = some 170 → cbf.get? (fp2 + 5) = some 85 →
      cbf.get? (fp2 + 6) = some b6 → b6 ≠ 51 →
      dataLoop cbf nf (fuel + 1) fp d read exp =
        dataLoop cbf nf fuel fp2 (d ++ [line]) (read + 1) exp) ∧
    (∀ b7, cbf.get? (fp2 + 4) = some 170 → cbf.get? (fp2 + 5) = some 85 →
      cbf.get? (fp2 + 6) = some 51 → cbf.get? (fp2 + 7) = some b7 → b7 ≠ 17 →
      dataLoop cbf nf (fuel + 1) fp d read exp =
        dataLoop cbf nf fuel fp2 (d ++ [line]) (read + 1) exp) := by
  refine ⟨?_, ?_, ?_, ?_, ?_⟩
  · intro m4 m5 m6 m7
    simp only [dataLoop, if_neg (not_le.mpr hfp), hrec, m4, m5, m6, m7]
    simp
  · intro b4 m4 hne
    simp only [dataLoop, if_neg (not_le.mpr hfp), hrec, m4]
    simp [hne]
  · intro b5 m4 m5 hne
    simp only [dataLoop, if_neg (not_le.mpr hfp), hrec, m4, m5]
    simp [hne]
  · intro b6 m4 m5 m6 hne
    simp only [dataLoop, if_neg (not_le.mpr hfp), hrec, m4, m5, m6]
    simp [hne]
  · intro b7 m4 m5 m6 m7 hne
    simp only [dataLoop, if_neg (not_le.mpr hfp), hrec, m4, m5, m6, m7]
    simp [hne]

/-- Witness for C8: on a ten-byte tail holding one record and a well-formed
trailer, the loop terminates after that record with expected count 1. -/
theorem c8_trailer_lookahead_witness :
    dataLoop [53, 0, 1, 0, 0, 0, 170, 85, 51, 17] 1 100 0 [] 0 (-1) =
      DataRes.done [[[53]]] 1 1 false :=
  (c8_trailer_lookahead [53, 0, 1, 0, 0, 0, 170, 85, 51, 17] 1 99 0 [] 0 (-1) [[53]] 2
    (by decide) rfl).1 rfl rfl rfl rfl

/-- C9: in the field-definition table, the first zero byte of a field bumps
the zero counter to one and appends a single space exactly when the
accumulator is non-empty (so the name and unit runs RPM 00 rpm merge into the
single label "RPM rpm"), and a field whose finalized processed text is empty
is neither recorded nor counted toward the field-count target. -/
theorem c9_field_zero_rules :
    (∀ (buf : List Nat) (nf fuel fp fn : Nat) (ft : List Nat) (hdr : List (List Nat)),
      fn < nf → fp < buf.length → buf.getD fp 0 = 0 →
      fieldLoop buf nf (fuel + 1) fp fn ft 0 hdr =
        fieldLoop buf nf fuel (fp + 1) fn (if 0 < ft.length then ft ++ [32] else ft) 1 hdr) ∧
    (∀ (buf : List Nat) (nf fuel fp fn : Nat) (ft : List Nat) (nz : Nat) (hdr : List (List Nat)),
      fn < nf → fp < buf.length → buf.getD fp 0 = 0 → 0 < nz →
      rstripSpaces (replaceB0 ft) = [] →
      fieldLoop buf nf (fuel + 1) fp fn ft nz hdr = fieldLoop buf nf fuel (fp + 1) fn [] 0 hdr) ∧
    fieldLoop [82, 80, 77, 0, 114, 112, 109, 0] 1 9 0 0 [] 0 [] =
      FieldRes.ok [[82, 80, 77, 32, 114, 112, 109]] 8 := by
  refine ⟨?_, ?_, rfl⟩
  · intro buf nf fuel fp fn ft hdr hfn hfp hb
    simp only [fieldLoop]
    rw [if_neg (by omega), if_neg (by omega), if_neg (by simp), if_neg (by rw [hb]; decide),
      if_neg (by rw [hb]; decide)]
  · intro buf nf fuel fp fn ft nz hdr hfn hfp hb hnz hemp
    simp only [fieldLoop]
    rw [if_neg (by omega), if_neg (by omega), if_pos ⟨hb, hnz⟩, if_neg (by simp [hemp])]

/-- Witness for C9 applying the first-zero rule at a concrete state with an
empty accumulator: no space is appended and the zero counter becomes one. -/
theorem c9_field_zero_rules_witness :
    fieldLoop [0, 53] 1 6 0 0 [] 0 [] = fieldLoop [0, 53] 1 5 1 0 [] 1 [] :=
  c9_field_zero_rules.1 [0, 53] 1 5 0 0 [] [] (by decide) (by decide) rfl

/-- C10: whenever the decoder returns a result, the error list is one of:
empty, a single stage-tagged end-of-file error, a single record-count
mismatch, or an end-of-file error followed by a record-count mismatch — so
at most two entries, at most one of each kind, with the end-of-file error
first. -/
theorem c10_error_list_shape (cbf : List Nat) (fuel : Nat) (r : DecodeResult)
    (h : parse_cbf cbf fuel = ParseOut.ok r) :
    r.errors = [] ∨
    (∃ s, r.errors = [ParseError.unexpectedEof s]) ∨
    (∃ a e, r.errors = [ParseError.recordCountMismatch a e]) ∨
    (∃ s a e, r.errors = [ParseError.unexpectedEof s, ParseError.recordCountMismatch a e]) := by
  rcases parse_ok_shape cbf fuel r h with ⟨_, _, s, he⟩ | ⟨_, he⟩ |
    ⟨nf, st, hdr, fp2, d, read, exp, sw, _, _, _, _, he⟩
  · exact Or.inr (Or.inl ⟨s, he⟩)
  · exact Or.inr (Or.inl ⟨Stage.fieldheader, he⟩)
  · rw [he]
    by_cases hm : (read : Int) = exp
    · cases sw
      · left
        simp [hm]
      · right; left
        exact ⟨Stage.data, by simp [hm]⟩
    · cases sw
      · right; right; left
        exact ⟨read, exp, by simp [hm]⟩
      · right; right; right
        exact ⟨Stage.data, read, exp, by simp [hm]⟩

/-- Witness for C10 at a buffer truncated mid-record: the error list is the
end-of-file error followed by the mismatch error. -/
theorem c10_error_list_shape_witness :
    [ParseError.unexpectedEof Stage.data, ParseError.recordCountMismatch 0 (-1)] = [] ∨
    (∃ s, [ParseError.unexpectedEof Stage.data, ParseError.recordCountMismatch 0 (-1)] =
      [ParseError.unexpectedEof s]) ∨
    (∃ a e, [ParseError.unexpectedEof Stage.data, ParseError.recordCountMismatch 0 (-1)] =
      [ParseError.recordCountMismatch a e]) ∨
    (∃ s a e, [ParseError.unexpectedEof Stage.data, ParseError.recordCountMismatch 0 (-1)] =
      [ParseError.unexpectedEof s, ParseError.recordCountMismatch a e]) :=
  c10_error_list_shape [65, 0, 66, 0, 123, 20, 142, 63, 0, 0, 0, 0, 67, 0, 1, 0, 88, 0, 0, 53] 100
    ⟨[[65], [66], [67]], [[88]], [],
      [ParseError.unexpectedEof Stage.data, ParseError.recordCountMismatch 0 (-1)]⟩ rfl
